import Mathlib

/-!
# Verification of `jdk/src/windows/back/linker_md.c`

A shallow embedding of the Windows dynamic-library shim of the JDWP back end:
`dbgsysGetLastErrorString`, `dbgsysBuildLibName` and `dbgsysLoadLibrary`.

Modelling conventions.

* A byte is a `Nat`; a region of memory (a `char` array) is a `List Nat` whose
  length is the number of bytes that may be accessed through the pointer.
* A read or a write outside the region is undefined behaviour in C and makes
  the embedded function return `none`.
* The C string held by a region is the run of bytes before the first NUL
  (`cstr`); `strlen` is its length.
* Values of type `int` and `long` are modelled as `Int`.  In
  `dbgsysBuildLibName` the lengths of the caller's strings are converted to
  the 32-bit `int` of the platform and added in it: each `(int)` conversion
  and each `int` addition there is reduced to the 32-bit two's-complement
  range (`toInt32`).  The counts of `dbgsysGetLastErrorString` come from the
  system formatter and from `strerror`, whose strings are bounded by the
  runtime.
* The operating system is a parameter: the loader, the message formatter and
  `strerror` are fields of `Env`; the last-error code and `errno` are fields
  of the explicit state `World`.
-/

namespace LinkerMd

/-! ## Memory and the C library -/

/-- Bytes of a string literal. -/
def lit (s : String) : List Nat := s.toList.map Char.toNat

/-- The C string stored at the start of a region: the bytes before the first NUL. -/
def cstr (s : List Nat) : List Nat := s.takeWhile (fun b => b ≠ 0)

/-- C `strlen`. -/
def strlen (s : List Nat) : Int := ((cstr s).length : Int)

/-- Reduction of an integer to the 32-bit two's-complement range of the
platform's `int`: the value of an `(int)` conversion and of an `int`
operation. -/
def toInt32 (x : Int) : Int := (x + 2147483648) % 4294967296 - 2147483648

/-- Read `buf[i]`; `none` when the index is outside the region. -/
def load (buf : List Nat) (i : Int) : Option Nat :=
  if 0 ≤ i ∧ i < (buf.length : Int) then buf.get? i.toNat else none

/-- Write `buf[i] = b`; `none` when the index is outside the region. -/
def store (buf : List Nat) (i : Int) (b : Nat) : Option (List Nat) :=
  if 0 ≤ i ∧ i < (buf.length : Int) then some (buf.set i.toNat b) else none

/-- Overwrite the first `bytes.length` bytes of a region; `none` when the
region is too short to take them. -/
def writeBytes (buf : List Nat) (bytes : List Nat) : Option (List Nat) :=
  if bytes.length ≤ buf.length then some (bytes ++ buf.drop bytes.length) else none

/-- C `strncpy(dst, src, n)`: exactly `n` bytes are written, the first
`min n (strlen src)` copied from `src` and the remaining ones NUL.  No NUL is
written when `strlen src ≥ n`.  The count is a `size_t`: a negative `int`
argument converts to a count larger than any region. -/
def strncpy (dst : List Nat) (src : List Nat) (n : Int) : Option (List Nat) :=
  if n < 0 then none
  else writeBytes dst ((cstr src).take n.toNat ++ List.replicate (n.toNat - (cstr src).length) 0)

/-- Output of a `printf`-style format restricted to the `%s` directive (the
only one the source uses): `%s` is replaced by the C string of the next
argument, any other byte is copied. -/
def format : List Nat → List (List Nat) → List Nat
  | 37 :: 115 :: fmt, a :: args => cstr a ++ format fmt args
  | b :: fmt, args => b :: format fmt args
  | [], _ => []

/-- C `sprintf(buf, fmt, args...)`: the formatted output followed by a NUL. -/
def sprintf (buf : List Nat) (fmt : List Nat) (args : List (List Nat)) : Option (List Nat) :=
  writeBytes buf (format fmt args ++ [0])

/-! ## The operating system -/

/-- Error state of the process: what `GetLastError()` reports, the value of
`errno`, and a count of the calls made to `GetLastError` so far. -/
structure World where
  lastError : Int
  errno : Int
  lastErrorReads : Nat
deriving DecidableEq

/-- The operating-system and C-runtime services the file calls.
`LoadLibrary` returns the module handle (`0` is `NULL`) and the state it
leaves; `FormatMessage code buf size` returns the number of characters stored
and the buffer after the call; `strerror` returns the description string. -/
structure Env where
  LoadLibrary : World → List Nat → Nat × World
  FormatMessage : Int → List Nat → Int → Int × List Nat
  strerror : Int → List Nat

/-- Win32 `GetLastError()`. -/
def GetLastError (w : World) : Int × World :=
  (w.lastError, World.mk w.lastError w.errno (w.lastErrorReads + 1))

/-- Win32 error code `ERROR_MOD_NOT_FOUND` (`winerror.h`). -/
def ERROR_MOD_NOT_FOUND : Int := 126

/-! ## The functions of `linker_md.c` -/

/-- Embedding of `dbgsysGetLastErrorString(buf, len)`: the returned length, the
buffer and the error state after the call. -/
def dbgsysGetLastErrorString (env : Env) (w : World) (buf : List Nat) (len : Int) :
    Option (Int × List Nat × World) :=
  let r := GetLastError w
  let errval := r.1
  let w1 := r.2
  if errval ≠ 0 then
    let fm := env.FormatMessage errval buf len
    let n := fm.1
    let buf1 := fm.2
    if n > 3 then
      (load buf1 (n - 1)).bind fun c1 =>
      let n1 := if c1 = 10 then n - 1 else n
      (load buf1 (n1 - 1)).bind fun c2 =>
      let n2 := if c2 = 13 then n1 - 1 else n1
      (load buf1 (n2 - 1)).bind fun c3 =>
      let n3 := if c3 = 46 then n2 - 1 else n2
      (store buf1 n3 0).bind fun buf2 =>
      some (n3, buf2, w1)
    else some (n, buf1, w1)
  else if w1.errno ≠ 0 then
    let s := env.strerror w1.errno
    let n0 := strlen s
    let n := if n0 ≥ len then len - 1 else n0
    (strncpy buf s n).bind fun buf1 =>
    (store buf1 n 0).bind fun buf2 =>
    some (n, buf2, w1)
  else some (0, buf, w1)

/-- Embedding of `dbgsysBuildLibName(holder, holderlen, pname, fname)`; a
`NULL` `pname` is `none`.  The result is the holder after the call.
`pnamelen` is `(int)strlen(pname)` and the guard adds `pnamelen`,
`(int)strlen(fname)` and 10 in `int`. -/
def dbgsysBuildLibName (holder : List Nat) (holderlen : Int) (pname : Option (List Nat))
    (fname : List Nat) : Option (List Nat) :=
  let pnamelen : Int := match pname with
    | some p => toInt32 (strlen p)
    | none => 0
  let c : Nat := if pnamelen > 0 then (pname.getD []).getD (pnamelen - 1).toNat 0 else 0
  if toInt32 (toInt32 (pnamelen + toInt32 (strlen fname)) + 10) > holderlen then
    store holder 0 0
  else if pnamelen = 0 then
    sprintf holder (lit "%s.dll") [fname]
  else if c = 58 ∨ c = 92 then
    sprintf holder (lit "%s%s.dll") [pname.getD [], fname]
  else
    sprintf holder (lit "%s\\%s.dll") [pname.getD [], fname]

/-- The literal `"Can't find dependent libraries"`. -/
def cantFindDependentLibraries : List Nat := lit "Can't find dependent libraries"

/-- Embedding of `dbgsysLoadLibrary(name, err_buf, err_buflen)`: the returned
handle, the error buffer and the error state after the call. -/
def dbgsysLoadLibrary (env : Env) (w : World) (name : List Nat) (err_buf : List Nat)
    (err_buflen : Int) : Option (Nat × List Nat × World) :=
  let l := env.LoadLibrary w name
  let result := l.1
  let w1 := l.2
  if result = 0 then
    let r := GetLastError w1
    let errcode := r.1
    let w2 := r.2
    if errcode = ERROR_MOD_NOT_FOUND then
      (strncpy err_buf cantFindDependentLibraries (err_buflen - 2)).bind fun b1 =>
      (store b1 (err_buflen - 1) 0).bind fun b2 =>
      some (result, b2, w2)
    else
      (dbgsysGetLastErrorString env w2 err_buf err_buflen).bind fun g =>
      some (result, g.2.1, g.2.2)
  else some (result, err_buf, w1)

/-! ## Specification-side definitions -/

/-- The path argument as a string: a `NULL` path counts as the empty path. -/
def pathString (pname : Option (List Nat)) : List Nat :=
  match pname with
  | some p => cstr p
  | none => []

/-- The library name the specification prescribes for path `p` and file name
`f`: `f.dll` for the empty path, `p` directly followed by `f.dll` when `p`
ends in a colon or a backslash, and `p`, a backslash, `f.dll` otherwise. -/
def composedName (p f : List Nat) : List Nat :=
  if p = [] then f ++ lit ".dll"
  else if p.getLast? = some 58 ∨ p.getLast? = some 92 then p ++ f ++ lit ".dll"
  else p ++ [92] ++ f ++ lit ".dll"

/-- Drop one trailing byte `c` from `s` if `s` ends in it. -/
def dropTrailing (c : Nat) (s : List Nat) : List Nat :=
  if s.getLast? = some c then s.dropLast else s

/-- The message with its trailing line feed, then its trailing carriage
return, then its trailing full stop dropped (each at most once, in that
order), as the specification words it. -/
def stripTrailing (m : List Nat) : List Nat :=
  dropTrailing 46 (dropTrailing 13 (dropTrailing 10 m))

/-- What `dbgsysGetLastErrorString` leaves of a system message `m`: the
stripped message when `m` has more than three characters, `m` itself
otherwise. -/
def messageLeft (m : List Nat) : List Nat :=
  if 3 < m.length then stripTrailing m else m

/-! ## A concrete operating system, for evaluating the functions -/

/-- An operating system whose loader returns the handle `h` and sets the
last-error code to `err`, whose formatter stores the message `msg` followed
by a NUL at the start of the buffer and returns its length, and whose
`strerror` returns `desc`. -/
def sampleEnv (h : Nat) (err : Int) (msg desc : List Nat) : Env :=
  Env.mk (fun w _ => (h, World.mk err w.errno w.lastErrorReads))
    (fun _ buf _ => ((msg.length : Int), msg ++ 0 :: buf.drop (msg.length + 1)))
    (fun _ => desc)

/-! ## Lemmas on memory -/

theorem cstr_ne_zero (s : List Nat) : ∀ b ∈ cstr s, b ≠ 0 := by
  intro b hb
  have h := List.mem_takeWhile_imp hb
  simpa using h

theorem cstr_append_nul (s t : List Nat) (h : ∀ b ∈ s, b ≠ 0) : cstr (s ++ 0 :: t) = s := by
  unfold cstr
  rw [List.takeWhile_append_of_pos (by simpa using h)]
  simp

theorem cstr_of_ne_zero (s : List Nat) (h : ∀ b ∈ s, b ≠ 0) : cstr s = s := by
  unfold cstr
  rw [List.takeWhile_eq_self_iff]
  simpa using h

theorem getD_cstr (p : List Nat) : ∀ i, i < (cstr p).length → p.getD i 0 = (cstr p).getD i 0 := by
  induction p with
  | nil => intro i hi; simp [cstr] at hi
  | cons a p ih =>
    intro i hi
    by_cases ha : a = 0
    · simp [cstr, ha] at hi
    · have hc : cstr (a :: p) = a :: cstr p := by simp [cstr, ha]
      rw [hc] at hi ⊢
      cases i with
      | zero => simp
      | succ j =>
        simp only [List.length_cons, Nat.add_lt_add_iff_right] at hi
        simpa using ih j hi

theorem getD_last_cstr (p : List Nat) (hp : cstr p ≠ []) :
    some (p.getD ((cstr p).length - 1) 0) = (cstr p).getLast? := by
  have hlen : 0 < (cstr p).length := List.length_pos.mpr hp
  rw [getD_cstr p _ (by omega), List.getLast?_eq_getElem?]
  simp [List.getD_eq_getElem?_getD, List.getElem?_eq_getElem (show (cstr p).length - 1 < (cstr p).length by omega)]

theorem format_dll (f : List Nat) : format (lit "%s.dll") [f] = cstr f ++ lit ".dll" := rfl

theorem format_root (p f : List Nat) :
    format (lit "%s%s.dll") [p, f] = cstr p ++ cstr f ++ lit ".dll" := by
  show cstr p ++ (cstr f ++ lit ".dll") = _
  simp

theorem format_sep (p f : List Nat) :
    format (lit "%s\\%s.dll") [p, f] = cstr p ++ [92] ++ cstr f ++ lit ".dll" := by
  show cstr p ++ (92 :: (cstr f ++ lit ".dll")) = _
  simp

theorem lit_dll : lit ".dll" = [46, 100, 108, 108] := by decide

theorem composedName_ne_zero (p f : List Nat) (hp : ∀ b ∈ p, b ≠ 0) (hf : ∀ b ∈ f, b ≠ 0) :
    ∀ b ∈ composedName p f, b ≠ 0 := by
  intro b hb
  unfold composedName at hb
  rw [lit_dll] at hb
  split_ifs at hb <;> simp at hb <;> aesop

theorem composedName_length_le (p f : List Nat) :
    (composedName p f).length ≤ p.length + f.length + 5 := by
  unfold composedName
  rw [lit_dll]
  split_ifs <;> simp <;> omega

theorem composedName_length_ge (p f : List Nat) :
    p.length + f.length + 4 ≤ (composedName p f).length := by
  unfold composedName
  rw [lit_dll]
  split_ifs with h1 h2
  · subst h1
    simp
  · simp only [List.length_append, List.length_cons, List.length_nil]
    omega
  · simp only [List.length_append, List.length_cons, List.length_nil]
    omega

theorem composedName_ne_nil (p f : List Nat) : composedName p f ≠ [] := by
  unfold composedName
  rw [lit_dll]
  split_ifs <;> simp

theorem toInt32_eq (x : Int) (h0 : -2147483648 ≤ x) (h1 : x ≤ 2147483647) : toInt32 x = x := by
  unfold toInt32
  omega

/-- The source's three-way choice of format computes the prescribed name, when
the sum of the two lengths and 10 is representable in an `int`. -/
theorem dbgsysBuildLibName_eq (holder : List Nat) (holderlen : Int)
    (pname : Option (List Nat)) (fname : List Nat)
    (hrep : ((pathString pname).length : Int) + ((cstr fname).length : Int) + 10
      ≤ 2147483647) :
    dbgsysBuildLibName holder holderlen pname fname =
      if ((pathString pname).length : Int) + ((cstr fname).length : Int) + 10 > holderlen then
        store holder 0 0
      else writeBytes holder (composedName (pathString pname) (cstr fname) ++ [0]) := by
  cases pname with
  | none =>
    simp only [pathString, List.length_nil, Nat.cast_zero] at hrep
    have hF : toInt32 ((cstr fname).length : Int) = ((cstr fname).length : Int) :=
      toInt32_eq _ (by omega) (by omega)
    have hS : toInt32 (0 + ((cstr fname).length : Int)) = 0 + ((cstr fname).length : Int) :=
      toInt32_eq _ (by omega) (by omega)
    have hT : toInt32 (0 + ((cstr fname).length : Int) + 10)
        = 0 + ((cstr fname).length : Int) + 10 :=
      toInt32_eq _ (by omega) (by omega)
    simp only [dbgsysBuildLibName, pathString, strlen, List.length_nil, Nat.cast_zero, hF, hS,
      hT]
    split_ifs <;> simp_all [sprintf, format_dll, composedName]
  | some p =>
    simp only [pathString] at hrep
    have hP : toInt32 ((cstr p).length : Int) = ((cstr p).length : Int) :=
      toInt32_eq _ (by omega) (by omega)
    have hF : toInt32 ((cstr fname).length : Int) = ((cstr fname).length : Int) :=
      toInt32_eq _ (by omega) (by omega)
    have hS : toInt32 (((cstr p).length : Int) + ((cstr fname).length : Int))
        = ((cstr p).length : Int) + ((cstr fname).length : Int) :=
      toInt32_eq _ (by omega) (by omega)
    have hT : toInt32 (((cstr p).length : Int) + ((cstr fname).length : Int) + 10)
        = ((cstr p).length : Int) + ((cstr fname).length : Int) + 10 :=
      toInt32_eq _ (by omega) (by omega)
    simp only [dbgsysBuildLibName, pathString, strlen, Option.getD_some, hP, hF, hS, hT]
    by_cases hov : ((cstr p).length : Int) + ((cstr fname).length : Int) + 10 > holderlen
    · simp [hov]
    · simp only [hov, if_false]
      by_cases hp : cstr p = []
      · simp [hp, sprintf, format_dll, composedName]
      · have hlen : 0 < (cstr p).length := List.length_pos.mpr hp
        have hpos : ((cstr p).length : Int) > 0 := by omega
        have hne : ((cstr p).length : Int) ≠ 0 := by omega
        have hidx : (((cstr p).length : Int) - 1).toNat = (cstr p).length - 1 := by omega
        have hlast := getD_last_cstr p hp
        simp only [hpos, hne, if_true, if_false, hidx]
        unfold composedName
        simp only [hp, if_false, ← hlast, Option.some.injEq]
        split_ifs <;> simp [sprintf, format_root, format_sep]

/-- The holder after `dbgsysBuildLibName`, for a holder of at least one byte
and at least `holderlen` bytes and lengths whose sum with 10 is representable
in an `int`. -/
theorem dbgsysBuildLibName_out (holder : List Nat) (holderlen : Int)
    (pname : Option (List Nat)) (fname : List Nat)
    (hvalid : 0 < holder.length) (hcap : holderlen ≤ (holder.length : Int))
    (hrep : ((pathString pname).length : Int) + ((cstr fname).length : Int) + 10
      ≤ 2147483647) :
    dbgsysBuildLibName holder holderlen pname fname =
      some (if ((pathString pname).length : Int) + ((cstr fname).length : Int) + 10 > holderlen
        then holder.set 0 0
        else composedName (pathString pname) (cstr fname) ++
          0 :: holder.drop ((composedName (pathString pname) (cstr fname)).length + 1)) := by
  rw [dbgsysBuildLibName_eq holder holderlen pname fname hrep]
  split_ifs with hov
  · have : (0 : Int) < (holder.length : Int) := by omega
    simp [store, this]
  · have hl := composedName_length_le (pathString pname) (cstr fname)
    have : (composedName (pathString pname) (cstr fname)).length + 1 ≤ holder.length := by omega
    simp [writeBytes, this]

theorem cstr_replicate (n b : Nat) (hb : b ≠ 0) :
    cstr (List.replicate n b) = List.replicate n b := by
  refine cstr_of_ne_zero _ ?_
  intro x hx
  rw [List.eq_of_mem_replicate hx]
  exact hb

theorem getD_replicate_zero (n b : Nat) (hn : 0 < n) : (List.replicate n b).getD 0 0 = b := by
  obtain ⟨k, rfl⟩ : ∃ k, n = k + 1 := ⟨n - 1, by omega⟩
  simp [List.replicate_succ]

/-- A path whose length becomes 0 under the `(int)` conversion is treated as
the `NULL` path. -/
theorem dbgsysBuildLibName_wrapped_zero (holder : List Nat) (holderlen : Int)
    (fname : List Nat) (n : Nat) (hn : toInt32 (n : Int) = 0) :
    dbgsysBuildLibName holder holderlen (some (List.replicate n 65)) fname
      = dbgsysBuildLibName holder holderlen none fname := by
  simp only [dbgsysBuildLibName, strlen, cstr_replicate n 65 (by decide),
    List.length_replicate, hn, gt_iff_lt, lt_self_iff_false, if_false, if_true]

/-- A path whose length becomes 1 under the `(int)` conversion passes the
guard of a holder of at least 14 bytes, and `sprintf` then runs past any
holder shorter than the path. -/
theorem dbgsysBuildLibName_wrapped_one (holder : List Nat) (holderlen : Int) (n : Nat)
    (hn : toInt32 (n : Int) = 1) (hlen : holder.length < n) (hcap : 14 ≤ holderlen) :
    dbgsysBuildLibName holder holderlen (some (List.replicate n 65)) (lit "foo") = none := by
  have hfoo : ((cstr (lit "foo")).length : Int) = 3 := by decide
  have h1 : toInt32 3 = 3 := by decide
  have h2 : toInt32 (1 + 3) = 4 := by decide
  have h3 : toInt32 (4 + 10) = 14 := by decide
  have hg : ¬ ((14 : Int) > holderlen) := by omega
  have hc : (List.replicate n 65).getD (1 - 1 : Int).toNat 0 = 65 :=
    getD_replicate_zero n 65 (by omega)
  have hfmt : (format (lit "%s\\%s.dll") [List.replicate n 65, lit "foo"]).length = n + 8 := by
    rw [format_sep, cstr_replicate n 65 (by decide)]
    have : (cstr (lit "foo") ++ lit ".dll").length = 7 := by decide
    simp only [List.length_append, List.length_replicate, List.length_singleton] at this ⊢
    omega
  have hne : ¬ ((1 : Int) = 0) := by decide
  have hpos : (1 : Int) > 0 := by decide
  have hsep : ¬ ((65 : Nat) = 58 ∨ (65 : Nat) = 92) := by decide
  simp only [dbgsysBuildLibName, strlen, cstr_replicate n 65 (by decide),
    List.length_replicate, hn, hfoo, h1, h2, h3, hg, if_false, Option.getD_some, hc, hne, hpos,
    if_true, hsep]
  unfold sprintf writeBytes
  rw [List.length_append, hfmt, if_neg]
  simp only [List.length_singleton]
  omega

theorem cstr_set_zero (holder : List Nat) (hvalid : 0 < holder.length) :
    cstr (holder.set 0 0) = [] := by
  cases holder with
  | nil => simp at hvalid
  | cons a t => simp [cstr]

theorem pathString_ne_zero (pname : Option (List Nat)) : ∀ b ∈ pathString pname, b ≠ 0 := by
  cases pname with
  | none => simp [pathString]
  | some p => exact cstr_ne_zero p

theorem composedName_suffix (p f : List Nat) : lit ".dll" <:+ composedName p f := by
  unfold composedName
  split_ifs
  · exact List.suffix_append _ _
  · exact List.suffix_append _ _
  · exact List.suffix_append _ _

/-! ## Theorems -/

/-- C1 (as amended): for a holder of at least one byte and at least
`holderlen` bytes, every path (a `NULL` path counting as empty) and every file
name with `len p + len f + 10` representable in the 32-bit `int`,
`dbgsysBuildLibName` returns and the string it leaves in the holder is the
composed name (`f.dll`, `p f.dll` after a colon or backslash, `p\f.dll`
otherwise) when `len p + len f + 10 ≤ holderlen`, and the empty string when
`len p + len f + 10 > holderlen`. -/
theorem dbgsysBuildLibName_composes (holder : List Nat) (holderlen : Int)
    (pname : Option (List Nat)) (fname : List Nat)
    (hvalid : 0 < holder.length) (hcap : holderlen ≤ (holder.length : Int))
    (hrep : ((pathString pname).length : Int) + ((cstr fname).length : Int) + 10
      ≤ 2147483647) :
    ∃ out, dbgsysBuildLibName holder holderlen pname fname = some out ∧
      cstr out =
        if ((pathString pname).length : Int) + ((cstr fname).length : Int) + 10 ≤ holderlen
        then composedName (pathString pname) (cstr fname) else [] := by
  refine ⟨_, dbgsysBuildLibName_out holder holderlen pname fname hvalid hcap hrep, ?_⟩
  by_cases hov : ((pathString pname).length : Int) + ((cstr fname).length : Int) + 10 > holderlen
  · have hle : ¬ ((pathString pname).length : Int) + ((cstr fname).length : Int) + 10 ≤ holderlen := by
      omega
    rw [if_pos hov, if_neg hle]
    exact cstr_set_zero holder hvalid
  · have hle : ((pathString pname).length : Int) + ((cstr fname).length : Int) + 10 ≤ holderlen := by
      omega
    rw [if_neg hov, if_pos hle]
    exact cstr_append_nul _ _
      (composedName_ne_zero _ _ (pathString_ne_zero pname) (cstr_ne_zero fname))

/-- Witness of C1: the two examples of the specification, capacity 64 with path
`C:\` and file name `foo` giving `C:\foo.dll`, and capacity 5 with path
`C:\verylongpath` giving the empty string. -/
theorem dbgsysBuildLibName_composes_witness :
    (∃ out, dbgsysBuildLibName (List.replicate 64 88) 64 (some (lit "C:\\")) (lit "foo")
        = some out ∧ cstr out = lit "C:\\foo.dll") ∧
    (∃ out, dbgsysBuildLibName (List.replicate 5 88) 5 (some (lit "C:\\verylongpath"))
        (lit "foo") = some out ∧ cstr out = []) := by
  constructor
  · obtain ⟨out, h, hs⟩ := dbgsysBuildLibName_composes (List.replicate 64 88) 64
      (some (lit "C:\\")) (lit "foo") (by decide) (by decide) (by decide)
    exact ⟨out, h, hs.trans (by decide)⟩
  · obtain ⟨out, h, hs⟩ := dbgsysBuildLibName_composes (List.replicate 5 88) 5
      (some (lit "C:\\verylongpath")) (lit "foo") (by decide) (by decide) (by decide)
    exact ⟨out, h, hs.trans (by decide)⟩

/-- C1 (as stated) fails on a path whose length is not representable in an
`int`: for a path of `2 ^ 32` bytes `A`, file name `foo` and a 64-byte holder
with `holderlen = 64`, `len p + len f + 10 > holderlen`, yet `pnamelen` is 0
after the `(int)` conversion, the guard sees 13 and the holder is left with
`foo.dll`, not with the empty string. -/
theorem dbgsysBuildLibName_wrapped_path_not_empty :
    ((pathString (some (List.replicate 4294967296 65))).length : Int)
        + ((cstr (lit "foo")).length : Int) + 10 > 64 ∧
    dbgsysBuildLibName (List.replicate 64 88) 64 (some (List.replicate 4294967296 65))
        (lit "foo") = some (lit "foo.dll" ++ 0 :: List.replicate 56 88) ∧
    cstr (lit "foo.dll" ++ 0 :: List.replicate 56 88) = lit "foo.dll" ∧
    lit "foo.dll" ≠ [] := by
  refine ⟨?_, ?_, by decide, by decide⟩
  · have hf : ((cstr (lit "foo")).length : Int) = 3 := by decide
    simp only [pathString, cstr_replicate 4294967296 65 (by decide), List.length_replicate, hf]
    omega
  · rw [dbgsysBuildLibName_wrapped_zero _ _ _ 4294967296 (by decide)]
    decide

/-- C8 (as amended): for a holder of exactly `holderlen ≥ 1` bytes, every path
and every file name with `len p + len f + 10` representable in the 32-bit
`int`, `dbgsysBuildLibName` performs no write outside the holder (it
returns a holder of the same size), and the string it leaves, counted with its
terminating NUL, occupies at most `holderlen` bytes. -/
theorem dbgsysBuildLibName_in_bounds (holder : List Nat) (holderlen : Int)
    (pname : Option (List Nat)) (fname : List Nat)
    (hlen : (holder.length : Int) = holderlen) (hpos : 1 ≤ holderlen)
    (hrep : ((pathString pname).length : Int) + ((cstr fname).length : Int) + 10
      ≤ 2147483647) :
    ∃ out, dbgsysBuildLibName holder holderlen pname fname = some out ∧
      out.length = holder.length ∧ ((cstr out).length : Int) + 1 ≤ holderlen := by
  have hvalid : 0 < holder.length := by omega
  refine ⟨_, dbgsysBuildLibName_out holder holderlen pname fname hvalid (by omega) hrep, ?_⟩
  have hl := composedName_length_le (pathString pname) (cstr fname)
  split_ifs with hov
  · rw [cstr_set_zero holder hvalid]
    simp
    omega
  · rw [cstr_append_nul _ _
      (composedName_ne_zero _ _ (pathString_ne_zero pname) (cstr_ne_zero fname))]
    constructor
    · simp only [List.length_append, List.length_cons, List.length_drop]
      omega
    · omega

/-- Witness of C8 at a 16-byte holder, path `C:\` and file name `foo`. -/
theorem dbgsysBuildLibName_in_bounds_witness :
    ∃ out, dbgsysBuildLibName (List.replicate 16 88) 16 (some (lit "C:\\")) (lit "foo")
        = some out ∧
      out.length = (List.replicate 16 88).length ∧ ((cstr out).length : Int) + 1 ≤ 16 :=
  dbgsysBuildLibName_in_bounds (List.replicate 16 88) 16 (some (lit "C:\\")) (lit "foo")
    (by decide) (by decide) (by decide)

/-- C8 (as stated) fails on a path whose length is not representable in an
`int`: for a path of `2 ^ 32 + 1` bytes `A`, file name `foo` and a holder of
exactly `holderlen = 64` bytes, `pnamelen` is 1 after the `(int)` conversion,
the guard sees 14 and lets the call through, and `sprintf` writes past the
end of the holder. -/
theorem dbgsysBuildLibName_wrapped_path_overrun :
    ((List.replicate 64 88).length : Int) = 64 ∧ (1 : Int) ≤ 64 ∧
    dbgsysBuildLibName (List.replicate 64 88) 64 (some (List.replicate 4294967297 65))
        (lit "foo") = none := by
  refine ⟨by decide, by decide, ?_⟩
  exact dbgsysBuildLibName_wrapped_one _ _ 4294967297 (by decide) (by simp) (by decide)

/-- C9 (as amended): for a holder of at least one byte and at least
`holderlen` bytes and lengths with `len p + len f + 10` representable in the
32-bit `int`, the string `dbgsysBuildLibName` leaves in the holder is empty exactly when
`len p + len f + 10 > holderlen`; it is either empty or the complete composed
name, which ends in `.dll`. -/
theorem dbgsysBuildLibName_empty_iff (holder : List Nat) (holderlen : Int)
    (pname : Option (List Nat)) (fname : List Nat)
    (hvalid : 0 < holder.length) (hcap : holderlen ≤ (holder.length : Int))
    (hrep : ((pathString pname).length : Int) + ((cstr fname).length : Int) + 10
      ≤ 2147483647) :
    ∃ out, dbgsysBuildLibName holder holderlen pname fname = some out ∧
      (cstr out = [] ↔
        ((pathString pname).length : Int) + ((cstr fname).length : Int) + 10 > holderlen) ∧
      (cstr out = [] ∨
        (cstr out = composedName (pathString pname) (cstr fname) ∧ lit ".dll" <:+ cstr out)) := by
  refine ⟨_, dbgsysBuildLibName_out holder holderlen pname fname hvalid hcap hrep, ?_⟩
  split_ifs with hov
  · rw [cstr_set_zero holder hvalid]
    simp [hov]
  · rw [cstr_append_nul _ _
      (composedName_ne_zero _ _ (pathString_ne_zero pname) (cstr_ne_zero fname))]
    refine ⟨?_, Or.inr ⟨rfl, composedName_suffix _ _⟩⟩
    constructor
    · intro h
      exact absurd h (composedName_ne_nil _ _)
    · intro h
      exact absurd h hov

/-- Witness of C9 at a 5-byte holder, too small for path `C:\` and file name `foo`. -/
theorem dbgsysBuildLibName_empty_iff_witness :
    ∃ out, dbgsysBuildLibName (List.replicate 5 88) 5 (some (lit "C:\\")) (lit "foo")
        = some out ∧
      (cstr out = [] ↔
        ((pathString (some (lit "C:\\"))).length : Int) + ((cstr (lit "foo")).length : Int) + 10
          > 5) ∧
      (cstr out = [] ∨
        (cstr out = composedName (pathString (some (lit "C:\\"))) (cstr (lit "foo")) ∧
          lit ".dll" <:+ cstr out)) :=
  dbgsysBuildLibName_empty_iff (List.replicate 5 88) 5 (some (lit "C:\\")) (lit "foo")
    (by decide) (by decide) (by decide)


/-- C9 (as stated) fails on a path whose length is not representable in an
`int`: for a path of `2 ^ 32` bytes `A`, file name `jdwp` and a 64-byte holder
with `holderlen = 64`, `len p + len f + 10 > holderlen`, yet the string left
is `jdwp.dll`: it is not empty, and it is not the composed name either. -/
theorem dbgsysBuildLibName_wrapped_path_iff_fails :
    ((pathString (some (List.replicate 4294967296 65))).length : Int)
        + ((cstr (lit "jdwp")).length : Int) + 10 > 64 ∧
    dbgsysBuildLibName (List.replicate 64 88) 64 (some (List.replicate 4294967296 65))
        (lit "jdwp") = some (lit "jdwp.dll" ++ 0 :: List.replicate 55 88) ∧
    cstr (lit "jdwp.dll" ++ 0 :: List.replicate 55 88) = lit "jdwp.dll" ∧
    cstr (lit "jdwp.dll" ++ 0 :: List.replicate 55 88) ≠ [] ∧
    (composedName (pathString (some (List.replicate 4294967296 65)))
        (cstr (lit "jdwp"))).length ≠ (lit "jdwp.dll").length := by
  refine ⟨?_, ?_, by decide, by decide, ?_⟩
  · have hf : ((cstr (lit "jdwp")).length : Int) = 4 := by decide
    simp only [pathString, cstr_replicate 4294967296 65 (by decide), List.length_replicate, hf]
    omega
  · rw [dbgsysBuildLibName_wrapped_zero _ _ _ 4294967296 (by decide)]
    decide
  · have hl : (lit "jdwp.dll").length = 8 := by decide
    have hge := composedName_length_ge (pathString (some (List.replicate 4294967296 65)))
      (cstr (lit "jdwp"))
    have hp : (pathString (some (List.replicate 4294967296 65))).length = 4294967296 := by
      show (cstr (List.replicate 4294967296 65)).length = 4294967296
      rw [cstr_replicate 4294967296 65 (by decide), List.length_replicate]
    rw [hl]
    omega

/-! ## Lemmas for `dbgsysGetLastErrorString` -/

theorem load_natCast (buf : List Nat) (k : Nat) (hk : k < buf.length) :
    load buf (k : Int) = some (buf.getD k 0) := by
  have h : (0 : Int) ≤ (k : Int) ∧ (k : Int) < (buf.length : Int) := by omega
  simp [load, h, List.getD_eq_getElem?_getD, List.getElem?_eq_getElem hk]

theorem store_natCast (buf : List Nat) (k : Nat) (b : Nat) (hk : k < buf.length) :
    store buf (k : Int) b = some (buf.set k b) := by
  have h : (0 : Int) ≤ (k : Int) ∧ (k : Int) < (buf.length : Int) := by omega
  simp [store, h]

theorem take_set_append_nul (m rest : List Nat) :
    ∀ k, k ≤ m.length → ((m ++ 0 :: rest).set k 0).take (k + 1) = m.take k ++ [0] := by
  induction m with
  | nil => intro k hk; simp at hk; subst hk; simp
  | cons a m ih =>
    intro k hk
    cases k with
    | zero => simp
    | succ j =>
      simp only [List.length_cons, Nat.add_le_add_iff_right] at hk
      simpa using ih j hk

theorem cstr_of_take (out s : List Nat) (h : out.take (s.length + 1) = s ++ [0])
    (hz : ∀ b ∈ s, b ≠ 0) : cstr out = s := by
  have hsplit : out = s ++ 0 :: out.drop (s.length + 1) := by
    conv_lhs => rw [← List.take_append_drop (s.length + 1) out, h]
    simp
  rw [hsplit]
  exact cstr_append_nul _ _ hz

theorem dropTrailing_take (m : List Nat) (c k : Nat) (hk1 : 1 ≤ k) (hk : k ≤ m.length) :
    dropTrailing c (m.take k) = m.take (if m.getD (k - 1) 0 = c then k - 1 else k) := by
  have hlast : (m.take k).getLast? = some (m.getD (k - 1) 0) := by
    rw [List.getLast?_eq_getElem?]
    have hl : (m.take k).length = k := by simp; omega
    rw [hl, List.getElem?_take_of_lt (by omega)]
    simp [List.getD_eq_getElem?_getD, List.getElem?_eq_getElem (show k - 1 < m.length by omega)]
  have hdrop : (m.take k).dropLast = m.take (k - 1) := by
    rw [List.dropLast_eq_take, List.take_take]
    have hl : (m.take k).length = k := by simp; omega
    rw [hl]
    congr 1
    omega
  unfold dropTrailing
  rw [hlast, hdrop]
  simp only [Option.some.injEq]
  split_ifs <;> rfl

/-- One of the three `if (buf[n - 1] == c) n--;` statements, on a buffer that
starts with the message `m`. -/
theorem strip_step (m rest : List Nat) (c k : Nat) (hk1 : 1 ≤ k) (hk : k ≤ m.length) :
    ∃ (x : Nat) (k2 : Nat), load (m ++ rest) ((k : Int) - 1) = some x ∧
      (if x = c then (k : Int) - 1 else (k : Int)) = (k2 : Int) ∧
      k - 1 ≤ k2 ∧ k2 ≤ k ∧ m.take k2 = dropTrailing c (m.take k) := by
  have hcast : (k : Int) - 1 = ((k - 1 : Nat) : Int) := by omega
  have hload : load (m ++ rest) ((k : Int) - 1) = some (m.getD (k - 1) 0) := by
    rw [hcast, load_natCast _ _ (by simp; omega)]
    simp [List.getD_eq_getElem?_getD, List.getElem?_append_left (show k - 1 < m.length by omega)]
  refine ⟨m.getD (k - 1) 0, if m.getD (k - 1) 0 = c then k - 1 else k, hload, ?_, ?_, ?_, ?_⟩
  · split_ifs
    · exact hcast
    · rfl
  · split_ifs <;> omega
  · split_ifs <;> omega
  · exact (dropTrailing_take m c k hk1 hk).symm

/-- The three stripping statements in sequence, on a buffer that starts with
a message `m` of more than three characters. -/
theorem strip_three (m rest : List Nat) (h3 : 3 < m.length) :
    ∃ (x1 x2 x3 : Nat) (k1 k2 k3 : Nat),
      load (m ++ rest) ((m.length : Int) - 1) = some x1 ∧
      (if x1 = 10 then (m.length : Int) - 1 else (m.length : Int)) = (k1 : Int) ∧
      load (m ++ rest) ((k1 : Int) - 1) = some x2 ∧
      (if x2 = 13 then (k1 : Int) - 1 else (k1 : Int)) = (k2 : Int) ∧
      load (m ++ rest) ((k2 : Int) - 1) = some x3 ∧
      (if x3 = 46 then (k2 : Int) - 1 else (k2 : Int)) = (k3 : Int) ∧
      1 ≤ k3 ∧ k3 ≤ m.length ∧ m.take k3 = stripTrailing m := by
  obtain ⟨x1, k1, hl1, he1, hlo1, hhi1, ht1⟩ := strip_step m rest 10 m.length (by omega) le_rfl
  obtain ⟨x2, k2, hl2, he2, hlo2, hhi2, ht2⟩ := strip_step m rest 13 k1 (by omega) (by omega)
  obtain ⟨x3, k3, hl3, he3, hlo3, hhi3, ht3⟩ := strip_step m rest 46 k2 (by omega) (by omega)
  refine ⟨x1, x2, x3, k1, k2, k3, hl1, he1, hl2, he2, hl3, he3, by omega, by omega, ?_⟩
  rw [ht3, ht2, ht1, List.take_length]
  rfl

theorem stripTrailing_length_le (m : List Nat) : (stripTrailing m).length ≤ m.length := by
  have h : ∀ (c : Nat) (s : List Nat), (dropTrailing c s).length ≤ s.length := by
    intro c s
    unfold dropTrailing
    split_ifs <;> simp
  unfold stripTrailing
  exact (h _ _).trans ((h _ _).trans (h _ _))

theorem stripTrailing_ne_zero (m : List Nat) (hz : ∀ b ∈ m, b ≠ 0) :
    ∀ b ∈ stripTrailing m, b ≠ 0 := by
  have h : ∀ (c : Nat) (s : List Nat), (∀ b ∈ s, b ≠ 0) → ∀ b ∈ dropTrailing c s, b ≠ 0 := by
    intro c s hs b hb
    unfold dropTrailing at hb
    split_ifs at hb
    · exact hs b (List.mem_of_mem_dropLast hb)
    · exact hs b hb
  unfold stripTrailing
  exact h _ _ (h _ _ (h _ _ hz))

/-! ## Theorems on `dbgsysGetLastErrorString` -/

/-- C3 (as amended): when the OS error code is nonzero and the formatter stores
a message `m` (NUL-terminated, of length at most `cap - 1`) in the buffer,
whatever `errno` is, `dbgsysGetLastErrorString` returns, the buffer holds,
NUL-terminated, the message stripped of one trailing line feed, then one
trailing carriage return, then one trailing full stop when `m` has more than
three characters, and `m` unchanged when it has at most three; the value
returned is the length of that string and is at most `cap - 1`. -/
theorem dbgsysGetLastErrorString_system_message (env : Env) (w : World) (buf : List Nat)
    (cap : Int) (m buf1 : List Nat)
    (herr : w.lastError ≠ 0)
    (hfm : env.FormatMessage w.lastError buf cap = ((m.length : Int), buf1))
    (hm : buf1.take (m.length + 1) = m ++ [0])
    (hz : ∀ b ∈ m, b ≠ 0)
    (hcap : (m.length : Int) ≤ cap - 1) :
    ∃ out w2, dbgsysGetLastErrorString env w buf cap
        = some (((messageLeft m).length : Int), out, w2) ∧
      cstr out = messageLeft m ∧
      out.take ((messageLeft m).length + 1) = messageLeft m ++ [0] ∧
      ((messageLeft m).length : Int) ≤ cap - 1 := by
  obtain ⟨rest, rfl⟩ : ∃ rest, buf1 = m ++ 0 :: rest := by
    refine ⟨buf1.drop (m.length + 1), ?_⟩
    conv_lhs => rw [← List.take_append_drop (m.length + 1) buf1, hm]
    simp
  by_cases h3 : 3 < m.length
  · obtain ⟨x1, x2, x3, k1, k2, k3, hl1, he1, hl2, he2, hl3, he3, hk1, hk3, ht⟩ :=
      strip_three m (0 :: rest) h3
    have hn : (m.length : Int) > 3 := by omega
    have hst : store (m ++ 0 :: rest) (k3 : Int) 0 = some ((m ++ 0 :: rest).set k3 0) :=
      store_natCast _ _ _ (by simp; omega)
    have hlen : (stripTrailing m).length = k3 := by
      rw [← ht]
      simp
      omega
    have hml : messageLeft m = stripTrailing m := by simp [messageLeft, h3]
    have htake : ((m ++ 0 :: rest).set k3 0).take (k3 + 1) = stripTrailing m ++ [0] := by
      rw [take_set_append_nul m rest k3 hk3, ht]
    refine ⟨(m ++ 0 :: rest).set k3 0, (GetLastError w).2, ?_, ?_, ?_, ?_⟩
    · simp only [dbgsysGetLastErrorString, GetLastError, herr, hfm, ne_eq, not_false_eq_true,
        if_true, hn, hl1, Option.some_bind, he1, hl2, he2, hl3, he3, hst, hml, hlen]
    · rw [hml]
      exact cstr_of_take _ _ (by rw [hlen]; exact htake) (stripTrailing_ne_zero m hz)
    · rw [hml, hlen]
      exact htake
    · rw [hml]
      have := stripTrailing_length_le m
      omega
  · have hn : ¬ (m.length : Int) > 3 := by omega
    have hml : messageLeft m = m := by simp [messageLeft, h3]
    refine ⟨m ++ 0 :: rest, (GetLastError w).2, ?_, ?_, ?_, ?_⟩
    · simp only [dbgsysGetLastErrorString, GetLastError, herr, hfm, ne_eq, not_false_eq_true,
        if_true, hn, if_false, hml]
    · rw [hml]
      exact cstr_append_nul _ _ hz
    · rw [hml]
      exact hm
    · rw [hml]
      exact hcap

/-- Witness of C3 (as amended): the message `Access is denied.` followed by
carriage return and line feed, in a 32-byte buffer. -/
theorem dbgsysGetLastErrorString_system_message_witness :
    (∃ out w2, dbgsysGetLastErrorString (sampleEnv 0 5 (lit "Access is denied.\r\n") [])
        (World.mk 5 0 0) (List.replicate 32 88) 32
        = some (((messageLeft (lit "Access is denied.\r\n")).length : Int), out, w2) ∧
      cstr out = messageLeft (lit "Access is denied.\r\n") ∧
      out.take ((messageLeft (lit "Access is denied.\r\n")).length + 1)
        = messageLeft (lit "Access is denied.\r\n") ++ [0] ∧
      ((messageLeft (lit "Access is denied.\r\n")).length : Int) ≤ 32 - 1) ∧
    messageLeft (lit "Access is denied.\r\n") = lit "Access is denied" :=
  ⟨dbgsysGetLastErrorString_system_message (sampleEnv 0 5 (lit "Access is denied.\r\n") [])
    (World.mk 5 0 0) (List.replicate 32 88) 32 (lit "Access is denied.\r\n")
    (lit "Access is denied.\r\n" ++ 0 :: List.replicate 12 88)
    (by decide) (by decide) (by decide) (by decide) (by decide), by decide⟩

/-- C3 (as stated) fails on a message of three characters: for the message
`a`, carriage return, line feed in a 16-byte buffer the formatter reports
length 3, and `dbgsysGetLastErrorString` returns 3 and leaves the message
unstripped, whereas the stripped message is `a`, of length 1. -/
theorem dbgsysGetLastErrorString_short_message_unstripped :
    (sampleEnv 0 2 (lit "a\r\n") []).FormatMessage 2 (List.replicate 16 88) 16
      = (3, lit "a\r\n" ++ 0 :: List.replicate 12 88) ∧
    dbgsysGetLastErrorString (sampleEnv 0 2 (lit "a\r\n") []) (World.mk 2 0 0)
      (List.replicate 16 88) 16
      = some (3, lit "a\r\n" ++ 0 :: List.replicate 12 88, World.mk 2 0 1) ∧
    cstr (lit "a\r\n" ++ 0 :: List.replicate 12 88) = lit "a\r\n" ∧
    stripTrailing (lit "a\r\n") = lit "a" ∧
    cstr (lit "a\r\n" ++ 0 :: List.replicate 12 88) ≠ stripTrailing (lit "a\r\n") ∧
    (3 : Int) ≠ ((stripTrailing (lit "a\r\n")).length : Int) := by
  decide

theorem take_set_at_length (A r : List Nat) (hr : r ≠ []) :
    ((A ++ r).set A.length 0).take (A.length + 1) = A ++ [0] := by
  induction A with
  | nil =>
    cases r with
    | nil => exact absurd rfl hr
    | cons a t => simp
  | cons a A ih => simpa using ih

/-- C4: for every capacity `cap ≥ 1`, every buffer of at least `cap` bytes and
every description string `s` returned by `strerror`, when the OS error code is
0 and `errno` is nonzero, `dbgsysGetLastErrorString` returns
`min (strlen s) (cap - 1)` and the buffer then holds exactly the first
`min (strlen s) (cap - 1)` bytes of `s` followed by a terminating NUL. -/
theorem dbgsysGetLastErrorString_errno (env : Env) (w : World) (buf : List Nat) (cap : Int)
    (hcap : 1 ≤ cap) (hbuf : cap ≤ (buf.length : Int))
    (h0 : w.lastError = 0) (he : w.errno ≠ 0) :
    ∃ out w2, dbgsysGetLastErrorString env w buf cap
        = some (min (strlen (env.strerror w.errno)) (cap - 1), out, w2) ∧
      out.take ((min (strlen (env.strerror w.errno)) (cap - 1)).toNat + 1)
        = (cstr (env.strerror w.errno)).take (min (strlen (env.strerror w.errno)) (cap - 1)).toNat
          ++ [0] ∧
      cstr out
        = (cstr (env.strerror w.errno)).take
            (min (strlen (env.strerror w.errno)) (cap - 1)).toNat := by
  set s := env.strerror w.errno with hs
  obtain ⟨k, hk⟩ : ∃ k : Nat, min (strlen s) (cap - 1) = (k : Int) :=
    ⟨(min (strlen s) (cap - 1)).toNat, by unfold strlen; omega⟩
  have hkL : k ≤ (cstr s).length := by unfold strlen at hk; omega
  have hkb : k < buf.length := by unfold strlen at hk; omega
  have hn : (if strlen s ≥ cap then cap - 1 else strlen s) = (k : Int) := by
    rw [← hk]
    split_ifs <;> omega
  have hA : ((cstr s).take k).length = k := by simp; omega
  have hcopy : strncpy buf s (k : Int) = some ((cstr s).take k ++ buf.drop k) := by
    have h1 : ¬ ((k : Int) < 0) := by omega
    have h2 : k - (cstr s).length = 0 := by omega
    simp only [strncpy, writeBytes, h1, if_false, Int.toNat_ofNat, h2, List.replicate_zero,
      List.append_nil, hA]
    rw [if_pos (by omega)]
  have hst : store ((cstr s).take k ++ buf.drop k) (k : Int) 0
      = some (((cstr s).take k ++ buf.drop k).set k 0) :=
    store_natCast _ _ _ (by simp; omega)
  have hdrop : buf.drop k ≠ [] := by
    intro h
    have := congrArg List.length h
    simp at this
    omega
  have htake : (((cstr s).take k ++ buf.drop k).set k 0).take (k + 1)
      = (cstr s).take k ++ [0] := by
    have := take_set_at_length ((cstr s).take k) (buf.drop k) hdrop
    rwa [hA] at this
  refine ⟨((cstr s).take k ++ buf.drop k).set k 0, (GetLastError w).2, ?_, ?_, ?_⟩
  · simp only [dbgsysGetLastErrorString, GetLastError, h0, ne_eq, not_true_eq_false,
      if_false, he, not_false_eq_true, if_true, ← hs, hn, hcopy, Option.some_bind, hst, hk]
  · rw [hk, Int.toNat_ofNat]
    exact htake
  · rw [hk, Int.toNat_ofNat]
    refine cstr_of_take _ _ (by rw [hA]; exact htake) ?_
    intro b hb
    exact cstr_ne_zero s b (List.mem_of_mem_take hb)

/-- Witness of C4: `errno` set, description `No such file or directory`, in an
8-byte buffer. -/
theorem dbgsysGetLastErrorString_errno_witness :
    ∃ out w2, dbgsysGetLastErrorString (sampleEnv 0 0 [] (lit "No such file or directory"))
        (World.mk 0 2 0) (List.replicate 8 88) 8
        = some (min (strlen ((sampleEnv 0 0 [] (lit "No such file or directory")).strerror
            (World.mk 0 2 0).errno)) (8 - 1), out, w2) ∧
      out.take ((min (strlen ((sampleEnv 0 0 [] (lit "No such file or directory")).strerror
            (World.mk 0 2 0).errno)) (8 - 1)).toNat + 1)
        = (cstr ((sampleEnv 0 0 [] (lit "No such file or directory")).strerror
            (World.mk 0 2 0).errno)).take
            (min (strlen ((sampleEnv 0 0 [] (lit "No such file or directory")).strerror
              (World.mk 0 2 0).errno)) (8 - 1)).toNat ++ [0] ∧
      cstr out
        = (cstr ((sampleEnv 0 0 [] (lit "No such file or directory")).strerror
            (World.mk 0 2 0).errno)).take
            (min (strlen ((sampleEnv 0 0 [] (lit "No such file or directory")).strerror
              (World.mk 0 2 0).errno)) (8 - 1)).toNat :=
  dbgsysGetLastErrorString_errno (sampleEnv 0 0 [] (lit "No such file or directory"))
    (World.mk 0 2 0) (List.replicate 8 88) 8 (by decide) (by decide) (by decide) (by decide)

/-- C5: when both the OS error code and `errno` are 0, for every buffer and
capacity `dbgsysGetLastErrorString` returns 0 and the buffer after the call is
the buffer before it. -/
theorem dbgsysGetLastErrorString_no_error (env : Env) (w : World) (buf : List Nat) (cap : Int)
    (h0 : w.lastError = 0) (he : w.errno = 0) :
    ∃ w2, dbgsysGetLastErrorString env w buf cap = some (0, buf, w2) := by
  refine ⟨(GetLastError w).2, ?_⟩
  simp [dbgsysGetLastErrorString, GetLastError, h0, he]

/-- Witness of C5 on a 4-byte buffer. -/
theorem dbgsysGetLastErrorString_no_error_witness :
    ∃ w2, dbgsysGetLastErrorString (sampleEnv 0 0 [] []) (World.mk 0 0 0) [1, 2, 3, 4] 4
      = some (0, [1, 2, 3, 4], w2) :=
  dbgsysGetLastErrorString_no_error (sampleEnv 0 0 [] []) (World.mk 0 0 0) [1, 2, 3, 4] 4
    (by decide) (by decide)

/-! ## Lemmas for `dbgsysLoadLibrary` -/

theorem cstr_set_of_lt (b : Nat) :
    ∀ (L : List Nat) (i : Nat), (cstr L).length < i → cstr (L.set i b) = cstr L := by
  intro L
  induction L with
  | nil => intro i _; simp
  | cons a L ih =>
    intro i hi
    cases i with
    | zero => simp at hi
    | succ j =>
      by_cases ha : a = 0
      · simp [cstr, ha]
      · have hc : cstr (a :: L) = a :: cstr L := by simp [cstr, ha]
        rw [hc] at hi
        simp only [List.length_cons, Nat.add_lt_add_iff_right] at hi
        have := ih j hi
        simp only [List.set_cons_succ]
        simp [cstr, ha] at this ⊢
        exact this

theorem map_bind_congr {α β γ : Type} (x : Option α) (f g : α → Option β) (p : β → γ)
    (h : ∀ a, (f a).map p = (g a).map p) : (x.bind f).map p = (x.bind g).map p := by
  cases x with
  | none => rfl
  | some a => exact h a

/-- The value returned and the buffer left by `dbgsysGetLastErrorString` depend
on the error state only through the last-error code and `errno`. -/
theorem dbgsysGetLastErrorString_congr (env : Env) (w v : World) (buf : List Nat) (cap : Int)
    (h1 : w.lastError = v.lastError) (h2 : w.errno = v.errno) :
    (dbgsysGetLastErrorString env w buf cap).map (fun g => (g.1, g.2.1))
      = (dbgsysGetLastErrorString env v buf cap).map (fun g => (g.1, g.2.1)) := by
  obtain ⟨e, n, k⟩ := w
  obtain ⟨e2, n2, k2⟩ := v
  simp only at h1 h2
  subst h1 h2
  by_cases he : e = 0
  · by_cases hn : n = 0
    · simp only [dbgsysGetLastErrorString, GetLastError, he, hn, ne_eq, not_true_eq_false,
        if_false, Option.map_some']
    · simp only [dbgsysGetLastErrorString, GetLastError, he, hn, ne_eq, not_true_eq_false,
        if_false, not_false_eq_true, if_true]
      refine map_bind_congr _ _ _ _ (fun b1 => ?_)
      refine map_bind_congr _ _ _ _ (fun b2 => ?_)
      simp only [Option.map_some']
  · by_cases h3 : (env.FormatMessage e buf cap).1 > 3
    · simp only [dbgsysGetLastErrorString, GetLastError, he, h3, ne_eq, not_false_eq_true,
        if_true]
      refine map_bind_congr _ _ _ _ (fun c1 => ?_)
      refine map_bind_congr _ _ _ _ (fun c2 => ?_)
      refine map_bind_congr _ _ _ _ (fun c3 => ?_)
      refine map_bind_congr _ _ _ _ (fun b2 => ?_)
      simp only [Option.map_some']
    · simp only [dbgsysGetLastErrorString, GetLastError, he, h3, ne_eq, not_false_eq_true,
        if_true, if_false, Option.map_some']

/-! ## Theorems on `dbgsysLoadLibrary` -/

/-- C7: when the loader fails (returns `NULL`) with a last-error code other
than `ERROR_MOD_NOT_FOUND`, for every name, buffer and capacity,
`dbgsysLoadLibrary` returns `NULL` and leaves in the error buffer exactly what
`dbgsysGetLastErrorString` leaves when run on the same buffer and capacity in
the error state the loader left (and is defined exactly when it is). -/
theorem dbgsysLoadLibrary_other_error (env : Env) (w : World) (name buf : List Nat) (cap : Int)
    (hnull : (env.LoadLibrary w name).1 = 0)
    (herr : (env.LoadLibrary w name).2.lastError ≠ ERROR_MOD_NOT_FOUND) :
    (dbgsysLoadLibrary env w name buf cap).map (fun r => (r.1, r.2.1))
      = (dbgsysGetLastErrorString env (env.LoadLibrary w name).2 buf cap).map
          (fun g => ((0 : Nat), g.2.1)) := by
  have hc := dbgsysGetLastErrorString_congr env (GetLastError (env.LoadLibrary w name).2).2
    (env.LoadLibrary w name).2 buf cap rfl rfl
  have herr2 : (GetLastError (env.LoadLibrary w name).2).1 ≠ ERROR_MOD_NOT_FOUND := herr
  simp only [dbgsysLoadLibrary, hnull, if_true]
  rw [if_neg herr2]
  rcases hA : dbgsysGetLastErrorString env (GetLastError (env.LoadLibrary w name).2).2 buf cap
    with _ | a <;>
  rcases hB : dbgsysGetLastErrorString env (env.LoadLibrary w name).2 buf cap with _ | b <;>
  rw [hA, hB] at hc <;> simp at hc ⊢
  exact hc.2

/-- Witness of C7: the loader fails with `ERROR_ACCESS_DENIED` (5). -/
theorem dbgsysLoadLibrary_other_error_witness :
    (dbgsysLoadLibrary (sampleEnv 0 5 (lit "Access is denied.\r\n") []) (World.mk 0 0 0)
        (lit "jdwp") (List.replicate 32 88) 32).map (fun r => (r.1, r.2.1))
      = (dbgsysGetLastErrorString (sampleEnv 0 5 (lit "Access is denied.\r\n") [])
          ((sampleEnv 0 5 (lit "Access is denied.\r\n") []).LoadLibrary (World.mk 0 0 0)
            (lit "jdwp")).2 (List.replicate 32 88) 32).map (fun g => ((0 : Nat), g.2.1)) :=
  dbgsysLoadLibrary_other_error (sampleEnv 0 5 (lit "Access is denied.\r\n") [])
    (World.mk 0 0 0) (lit "jdwp") (List.replicate 32 88) 32 (by decide) (by decide)

/-- C10: when the loader succeeds with a non-null handle `h`, for every name,
buffer and capacity `dbgsysLoadLibrary` returns exactly `h`, leaves the error
buffer as it was, and leaves the error state exactly as the loader left it:
in particular the count of `GetLastError` calls is unchanged, so the OS error
code has not been read. -/
theorem dbgsysLoadLibrary_success (env : Env) (w : World) (name buf : List Nat) (cap : Int)
    (h : Nat) (w1 : World)
    (hload : env.LoadLibrary w name = (h, w1)) (hh : h ≠ 0) :
    dbgsysLoadLibrary env w name buf cap = some (h, buf, w1) ∧
      ∀ r, dbgsysLoadLibrary env w name buf cap = some r →
        r.2.2.lastErrorReads = w1.lastErrorReads := by
  have hres : dbgsysLoadLibrary env w name buf cap = some (h, buf, w1) := by
    simp only [dbgsysLoadLibrary, hload, hh, if_false]
  refine ⟨hres, ?_⟩
  intro r hr
  rw [hres] at hr
  cases hr
  rfl

/-- Witness of C10: the loader returns the handle 7. -/
theorem dbgsysLoadLibrary_success_witness :
    dbgsysLoadLibrary (sampleEnv 7 0 [] []) (World.mk 0 0 0) (lit "jdwp") [1, 2, 3, 4] 4
        = some (7, [1, 2, 3, 4], World.mk 0 0 0) ∧
      ∀ r, dbgsysLoadLibrary (sampleEnv 7 0 [] []) (World.mk 0 0 0) (lit "jdwp") [1, 2, 3, 4] 4
          = some r →
        r.2.2.lastErrorReads = (World.mk 0 0 0).lastErrorReads :=
  dbgsysLoadLibrary_success (sampleEnv 7 0 [] []) (World.mk 0 0 0) (lit "jdwp") [1, 2, 3, 4] 4
    7 (World.mk 0 0 0) (by decide) (by decide)

theorem cantFindDependentLibraries_ne_zero : ∀ b ∈ cantFindDependentLibraries, b ≠ 0 := by
  decide

/-- C6: for `err_buflen = 128` and every buffer of at least 128 bytes, when the
loader fails and the last-error code is `ERROR_MOD_NOT_FOUND`,
`dbgsysLoadLibrary` returns `NULL` and the error buffer holds, as a
NUL-terminated string, exactly `Can't find dependent libraries`. -/
theorem dbgsysLoadLibrary_mod_not_found_128 (env : Env) (w : World) (name buf : List Nat)
    (hbuf : 128 ≤ buf.length)
    (hnull : (env.LoadLibrary w name).1 = 0)
    (herr : (env.LoadLibrary w name).2.lastError = ERROR_MOD_NOT_FOUND) :
    ∃ out w2, dbgsysLoadLibrary env w name buf 128 = some (0, out, w2) ∧
      cstr out = cantFindDependentLibraries ∧
      out.take 31 = cantFindDependentLibraries ++ [0] := by
  have hX : (cstr cantFindDependentLibraries).take (128 - 2 : Int).toNat
      ++ List.replicate ((128 - 2 : Int).toNat - (cstr cantFindDependentLibraries).length) 0
      = cantFindDependentLibraries ++ 0 :: List.replicate 95 0 := by decide
  have h30 : cantFindDependentLibraries.length = 30 := by decide
  have hXlen : (cantFindDependentLibraries ++ 0 :: List.replicate 95 0).length = 126 := by
    simp [h30]
  have hcopy : strncpy buf cantFindDependentLibraries (128 - 2)
      = some ((cantFindDependentLibraries ++ 0 :: List.replicate 95 0) ++ buf.drop 126) := by
    have hneg : ¬ ((128 - 2 : Int) < 0) := by decide
    simp only [strncpy, hneg, if_false, hX, writeBytes, hXlen]
    rw [if_pos (by omega)]
  have hst : store ((cantFindDependentLibraries ++ 0 :: List.replicate 95 0) ++ buf.drop 126)
      (128 - 1) 0
      = some (((cantFindDependentLibraries ++ 0 :: List.replicate 95 0) ++ buf.drop 126).set
          127 0) :=
    store_natCast _ 127 0 (by rw [List.length_append, hXlen, List.length_drop]; omega)
  have hcs : cstr ((cantFindDependentLibraries ++ 0 :: List.replicate 95 0) ++ buf.drop 126)
      = cantFindDependentLibraries := by
    rw [List.append_assoc, List.cons_append]
    exact cstr_append_nul _ _ cantFindDependentLibraries_ne_zero
  have hout : cstr (((cantFindDependentLibraries ++ 0 :: List.replicate 95 0)
      ++ buf.drop 126).set 127 0) = cantFindDependentLibraries := by
    rw [cstr_set_of_lt 0 _ 127 (by rw [hcs]; decide), hcs]
  refine ⟨_, (GetLastError (env.LoadLibrary w name).2).2, ?_, hout, ?_⟩
  · simp only [dbgsysLoadLibrary, hnull, if_true, GetLastError, herr, hcopy, Option.some_bind,
      hst]
  · rw [List.take_set_of_lt 0 _ (by decide : 31 < 127), List.append_assoc, List.cons_append,
      show cantFindDependentLibraries ++ 0 :: (List.replicate 95 0 ++ buf.drop 126)
        = (cantFindDependentLibraries ++ [0]) ++ (List.replicate 95 0 ++ buf.drop 126) by simp]
    exact List.take_left' (by simp [h30])

/-- Witness of C6: a 128-byte buffer filled with `X`, the loader failing with
`ERROR_MOD_NOT_FOUND`. -/
theorem dbgsysLoadLibrary_mod_not_found_128_witness :
    ∃ out w2, dbgsysLoadLibrary (sampleEnv 0 126 [] []) (World.mk 0 0 0)
        (lit "definitely_missing_xyz") (List.replicate 128 88) 128 = some (0, out, w2) ∧
      cstr out = cantFindDependentLibraries ∧
      out.take 31 = cantFindDependentLibraries ++ [0] :=
  dbgsysLoadLibrary_mod_not_found_128 (sampleEnv 0 126 [] []) (World.mk 0 0 0)
    (lit "definitely_missing_xyz") (List.replicate 128 88) (by simp) (by decide) (by decide)

/-- The error buffer after the `ERROR_MOD_NOT_FOUND` branch, for a capacity of
at least 2 and a buffer of at least that many bytes: `strncpy` fills the first
`err_buflen - 2` bytes, the NUL is stored at index `err_buflen - 1`, and the
byte at index `err_buflen - 2` keeps the value it had before the call. -/
theorem dbgsysLoadLibrary_mod_not_found_out (env : Env) (w : World) (name buf : List Nat)
    (k : Nat) (hbuf : k + 2 ≤ buf.length)
    (hnull : (env.LoadLibrary w name).1 = 0)
    (herr : (env.LoadLibrary w name).2.lastError = ERROR_MOD_NOT_FOUND) :
    dbgsysLoadLibrary env w name buf ((k : Int) + 2)
      = some (0, ((cantFindDependentLibraries.take k ++ List.replicate (k - 30) 0)
          ++ buf.drop k).set (k + 1) 0, (GetLastError (env.LoadLibrary w name).2).2) := by
  have hc : cstr cantFindDependentLibraries = cantFindDependentLibraries :=
    cstr_of_ne_zero _ cantFindDependentLibraries_ne_zero
  have h30 : cantFindDependentLibraries.length = 30 := by decide
  have hk2 : (k : Int) + 2 - 2 = (k : Int) := by omega
  have hk1 : (k : Int) + 2 - 1 = ((k + 1 : Nat) : Int) := by omega
  have hlen : (cantFindDependentLibraries.take k ++ List.replicate (k - 30) 0).length = k := by
    simp [h30]
    omega
  have hcopy : strncpy buf cantFindDependentLibraries (k : Int)
      = some ((cantFindDependentLibraries.take k ++ List.replicate (k - 30) 0)
          ++ buf.drop k) := by
    have hneg : ¬ ((k : Int) < 0) := by omega
    simp only [strncpy, hneg, if_false, hc, Int.toNat_ofNat, h30, writeBytes, hlen]
    rw [if_pos (by omega)]
  have hst : store ((cantFindDependentLibraries.take k ++ List.replicate (k - 30) 0)
      ++ buf.drop k) ((k + 1 : Nat) : Int) 0
      = some (((cantFindDependentLibraries.take k ++ List.replicate (k - 30) 0)
          ++ buf.drop k).set (k + 1) 0) :=
    store_natCast _ (k + 1) 0 (by rw [List.length_append, hlen, List.length_drop]; omega)
  have herr2 : (GetLastError (env.LoadLibrary w name).2).1 = ERROR_MOD_NOT_FOUND := herr
  simp only [dbgsysLoadLibrary, hnull, if_true, herr2, hk2, hk1, hcopy, Option.some_bind, hst]

/-- C2 fails on the code: with `err_buflen = 10` and a 10-byte error buffer
filled with `X`, the loader failing with `ERROR_MOD_NOT_FOUND`,
`dbgsysLoadLibrary` returns `NULL` and leaves the string `Can't fiX` in the
buffer, that is the first `10 - 2` characters of the diagnostic followed by
the stale byte at index 8, not the first 8 characters alone. -/
theorem dbgsysLoadLibrary_mod_not_found_stale_byte :
    dbgsysLoadLibrary (sampleEnv 0 126 [] []) (World.mk 0 0 0) (lit "definitely_missing_xyz")
        (List.replicate 10 88) 10
      = some (0, lit "Can't fiX" ++ [0], World.mk 126 0 1) ∧
    cstr (lit "Can't fiX" ++ [0]) = lit "Can't fiX" ∧
    cantFindDependentLibraries.take 8 = lit "Can't fi" ∧
    cstr (lit "Can't fiX" ++ [0]) ≠ cantFindDependentLibraries.take 8 := by
  decide

end LinkerMd
